import Mathlib

/-!
Verification of the password generator and strength scorer in
`src/utils/passwordGenerator.js` of the pass-gen repository.

The generator is embedded with its random source abstracted as a stream
`randoms : Nat → Nat` of drawn values (the JS code draws one `Uint32` per
output character and reduces it modulo the character-set length; every
value the JS code can draw is a natural number, and the embedding is
quantified over all natural-valued streams, which subsumes the 32-bit
range).  Strings are embedded as `List Char`.  The scorer's `Math.log2`
is embedded as `Real.logb 2`, and its arithmetic over `ℚ`/`ℝ`.
-/

namespace PassGen

/-- Uppercase table, full variant (source line 51, else-branch). -/
def upperFull : List Char := "ABCDEFGHIJKLMNOPQRSTUVWXYZ".toList

/-- Uppercase table with similar characters excluded (source line 51). -/
def upperNoSimilar : List Char := "ABCDEFGHJKLMNPQRSTUVWXYZ".toList

/-- Lowercase table, full variant (source line 54, else-branch). -/
def lowerFull : List Char := "abcdefghijklmnopqrstuvwxyz".toList

/-- Lowercase table with similar characters excluded (source line 54). -/
def lowerNoSimilar : List Char := "abcdefghijkmnopqrstuvwxyz".toList

/-- Digit table, full variant (source line 57, else-branch). -/
def numbersFull : List Char := "0123456789".toList

/-- Digit table with similar characters excluded (source line 57). -/
def numbersNoSimilar : List Char := "23456789".toList

/-- Symbol table, full variant (source line 62). -/
def symbolsFull : List Char := "!@#$%^&*()_+-=[]\x7b\x7d|;:,.<>?/~`".toList

/-- Symbol table used when `excludeAmbiguous` is set (source line 61). -/
def symbolsNoAmbiguous : List Char := "!@#$%^&*()_+-=[]\x7b\x7d|;:,.<>?".toList

/-- The similar characters named by the spec: 0, O, 1, l, I. -/
def similarChars : List Char := "0O1lI".toList

/-- The full set the spec claims `excludeAmbiguous` removes. -/
def claimedAmbiguousChars : List Char := "[]\x7b\x7d|<>/~`".toList

/-- The symbols the code actually removes when `excludeAmbiguous` is set:
the difference between `symbolsFull` and `symbolsNoAmbiguous`. -/
def removedAmbiguousChars : List Char := "/~`".toList

/-- The caller-supplied options object; `none` models an absent field
(source lines 37–45 destructure with defaults). -/
structure Options where
  length : Option Nat
  includeUppercase : Option Bool
  includeLowercase : Option Bool
  includeNumbers : Option Bool
  includeSymbols : Option Bool
  excludeSimilar : Option Bool
  excludeAmbiguous : Option Bool

/-- Fully resolved generation configuration. -/
structure Config where
  length : Nat
  includeUppercase : Bool
  includeLowercase : Bool
  includeNumbers : Bool
  includeSymbols : Bool
  excludeSimilar : Bool
  excludeAmbiguous : Bool

/-- Default resolution performed by the destructuring on source
lines 37–45: length 16, all four classes included, no exclusions. -/
def resolveOptions (o : Options) : Config where
  length := o.length.getD 16
  includeUppercase := o.includeUppercase.getD true
  includeLowercase := o.includeLowercase.getD true
  includeNumbers := o.includeNumbers.getD true
  includeSymbols := o.includeSymbols.getD true
  excludeSimilar := o.excludeSimilar.getD false
  excludeAmbiguous := o.excludeAmbiguous.getD false

/-- Character-set construction of source lines 48–64: concatenation in
the fixed order uppercase, lowercase, numbers, symbols; letters and
digits consult `excludeSimilar`, symbols consult `excludeAmbiguous`. -/
def buildCharSet (c : Config) : List Char :=
  (if c.includeUppercase then (if c.excludeSimilar then upperNoSimilar else upperFull) else []) ++
  (if c.includeLowercase then (if c.excludeSimilar then lowerNoSimilar else lowerFull) else []) ++
  (if c.includeNumbers then (if c.excludeSimilar then numbersNoSimilar else numbersFull) else []) ++
  (if c.includeSymbols then (if c.excludeAmbiguous then symbolsNoAmbiguous else symbolsFull) else [])

/-- Source lines 18–22: one drawn value reduced modulo the character-set
length indexes the set.  The nonemptiness hypothesis reflects the check
on source line 67 that guards the generation loop. -/
def getRandomChar (charSet : List Char) (r : Nat) (h : charSet ≠ []) : Char :=
  charSet.get ⟨r % charSet.length, Nat.mod_lt _ (List.length_pos.mpr h)⟩

/-- Source lines 36–78: resolve options, build the character set, fail
with the configuration error when it is empty, otherwise produce one
character per position from consecutive draws of the random stream. -/
def generatePassword (opts : Options) (randoms : Nat → Nat) : Except String (List Char) :=
  let c := resolveOptions opts
  let charSet := buildCharSet c
  if h : charSet = [] then
    Except.error "至少需要选择一种字符类型"
  else
    Except.ok ((List.range c.length).map fun i => getRandomChar charSet (randoms i) h)

/-- Test of the regex `[a-z]` on one character. -/
def isLower (c : Char) : Bool := 'a' ≤ c && c ≤ 'z'

/-- Test of the regex `[A-Z]` on one character. -/
def isUpper (c : Char) : Bool := 'A' ≤ c && c ≤ 'Z'

/-- Test of the regex `[0-9]` on one character. -/
def isDigit (c : Char) : Bool := '0' ≤ c && c ≤ '9'

/-- Test of the regex `[^a-zA-Z0-9]` on one character: the complement of
the three previous classes. -/
def isSymbol (c : Char) : Bool := !(isLower c || isUpper c || isDigit c)

/-- The regex test `/[a-z]/.test(password)`. -/
def hasLower (p : List Char) : Bool := p.any isLower

/-- The regex test `/[A-Z]/.test(password)`. -/
def hasUpper (p : List Char) : Bool := p.any isUpper

/-- The regex test `/[0-9]/.test(password)`. -/
def hasDigit (p : List Char) : Bool := p.any isDigit

/-- The regex test `/[^a-zA-Z0-9]/.test(password)`. -/
def hasSymbol (p : List Char) : Bool := p.any isSymbol

/-- Length bonuses of source lines 94–97: +10 at each of the cumulative
thresholds 8, 12, 16, 20. -/
def lengthScore (n : Nat) : ℚ :=
  (if 8 ≤ n then 10 else 0) + (if 12 ≤ n then 10 else 0) +
  (if 16 ≤ n then 10 else 0) + (if 20 ≤ n then 10 else 0)

/-- Class-presence bonuses of source lines 100–103: +10 per class present. -/
def classScore (p : List Char) : ℚ :=
  (if hasLower p then 10 else 0) + (if hasUpper p then 10 else 0) +
  (if hasDigit p then 10 else 0) + (if hasSymbol p then 10 else 0)

/-- `new Set(password).size` of source line 106: distinct characters. -/
def uniqueChars (p : List Char) : Nat := p.toFinset.card

/-- Uniqueness bonus of source line 107: `min(unique / length * 20, 20)`. -/
def uniquenessBonus (p : List Char) : ℚ :=
  min ((uniqueChars p : ℚ) / (p.length : ℚ) * 20) 20

/-- Per-class alphabet-size estimate of source lines 153–160. -/
def getCharSetSize (p : List Char) : Nat :=
  (if hasLower p then 26 else 0) + (if hasUpper p then 26 else 0) +
  (if hasDigit p then 10 else 0) + (if hasSymbol p then 32 else 0)

/-- Entropy bonus of source lines 110–112:
`min(length * log2(charSetSize) / 10, 10)`. -/
noncomputable def entropyBonus (p : List Char) : ℝ :=
  min ((p.length : ℝ) * Real.logb 2 (getCharSetSize p) / 10) 10

/-- The accumulated score of source lines 90–112, before clamping. -/
noncomputable def rawScore (p : List Char) : ℝ :=
  (lengthScore p.length : ℝ) + (classScore p : ℝ) + (uniquenessBonus p : ℝ) + entropyBonus p

/-- Level thresholds of source lines 118–122. -/
noncomputable def strengthLevel (s : ℝ) : String :=
  if 80 ≤ s then "very-strong"
  else if 60 ≤ s then "strong"
  else if 40 ≤ s then "medium"
  else "weak"

/-- Feedback messages of source lines 125–145, in their fixed order. -/
def feedbackFor (p : List Char) : List String :=
  (if p.length < 8 then ["密码长度至少应为 8 个字符"] else []) ++
  (if p.length < 12 then ["建议使用 12 个字符以上的密码"] else []) ++
  (if !(hasLower p) then ["建议包含小写字母"] else []) ++
  (if !(hasUpper p) then ["建议包含大写字母"] else []) ++
  (if !(hasDigit p) then ["建议包含数字"] else []) ++
  (if !(hasSymbol p) then ["建议包含特殊字符"] else []) ++
  (if (uniqueChars p : ℚ) / (p.length : ℚ) < 0.5 then ["建议使用更多不同的字符"] else [])

/-- The strength report of source line 147. -/
structure StrengthReport where
  score : ℝ
  level : String
  feedback : List String

/-- Source lines 85–148: the empty password short-circuits to the zero
report; otherwise the clamped additive score, its level, and the
feedback list. -/
noncomputable def calculatePasswordStrength (p : List Char) : StrengthReport :=
  if p = [] then ⟨0, "weak", []⟩
  else
    let score := min (max (rawScore p) 0) 100
    ⟨score, strengthLevel score, feedbackFor p⟩

/-- Number of character classes present, used to phrase the
"mixed classes" hypothesis of the monotonicity property. -/
def numClasses (p : List Char) : Nat :=
  (if hasLower p then 1 else 0) + (if hasUpper p then 1 else 0) +
  (if hasDigit p then 1 else 0) + (if hasSymbol p then 1 else 0)

/-- Options object with every field absent, i.e. `generatePassword({})`. -/
def emptyOptions : Options := ⟨none, none, none, none, none, none, none⟩

/-! ## Helper lemmas about the generator -/

theorem buildCharSet_eq_nil_iff (c : Config) :
    buildCharSet c = [] ↔
      (c.includeUppercase = false ∧ c.includeLowercase = false ∧
       c.includeNumbers = false ∧ c.includeSymbols = false) := by
  rcases c with ⟨n, u, l, m, s, es, ea⟩
  cases u <;> cases l <;> cases m <;> cases s <;> cases es <;> cases ea <;>
    dsimp only [buildCharSet] <;> decide

theorem mem_buildCharSet_excludeSimilar (c : Config) (hc : c.excludeSimilar = true) :
    ∀ ch ∈ buildCharSet c, ch ∉ similarChars := by
  rcases c with ⟨n, u, l, m, s, es, ea⟩
  cases es with
  | false => cases hc
  | true => cases u <;> cases l <;> cases m <;> cases s <;> cases ea <;>
      dsimp only [buildCharSet] <;> decide

theorem mem_buildCharSet_excludeAmbiguous (c : Config) (hc : c.excludeAmbiguous = true) :
    ∀ ch ∈ buildCharSet c, ch ∉ removedAmbiguousChars := by
  rcases c with ⟨n, u, l, m, s, es, ea⟩
  cases ea with
  | false => cases hc
  | true => cases u <;> cases l <;> cases m <;> cases s <;> cases es <;>
      dsimp only [buildCharSet] <;> decide

theorem generatePassword_ok_of_ne_nil (opts : Options) (randoms : Nat → Nat)
    (h : buildCharSet (resolveOptions opts) ≠ []) :
    generatePassword opts randoms =
      Except.ok ((List.range (resolveOptions opts).length).map
        fun i => getRandomChar (buildCharSet (resolveOptions opts)) (randoms i) h) := by
  simp only [generatePassword]
  rw [dif_neg h]

theorem mem_charSet_of_ok (opts : Options) (randoms : Nat → Nat) (pw : List Char)
    (hok : generatePassword opts randoms = Except.ok pw) :
    ∀ ch ∈ pw, ch ∈ buildCharSet (resolveOptions opts) := by
  by_cases h : buildCharSet (resolveOptions opts) = []
  · simp only [generatePassword] at hok
    rw [dif_pos h] at hok
    cases hok
  · rw [generatePassword_ok_of_ne_nil opts randoms h] at hok
    cases hok
    intro ch hch
    rcases List.mem_map.mp hch with ⟨i, _, rfl⟩
    exact List.get_mem _ _ _

theorem length_of_ok (opts : Options) (randoms : Nat → Nat) (pw : List Char)
    (hok : generatePassword opts randoms = Except.ok pw) :
    pw.length = (resolveOptions opts).length := by
  by_cases h : buildCharSet (resolveOptions opts) = []
  · simp only [generatePassword] at hok
    rw [dif_pos h] at hok
    cases hok
  · rw [generatePassword_ok_of_ne_nil opts randoms h] at hok
    cases hok
    simp

/-! ## Generator claims -/

/-- Options of the C1 counterexample: symbols only, `excludeAmbiguous`
set, length 1. -/
def c1opts : Options := ⟨some 1, some false, some false, some false, some true, some false, some true⟩

/-- C1 is false on the code: with `includeSymbols = true` and
`excludeAmbiguous = true`, the draw 14 produces the password `"["`,
and `[` is in the spec's claimed ambiguous set.  The code's
ambiguous-excluded symbol table still contains the brackets, braces,
pipe and angle brackets; it only removes `/`, `~` and the backquote. -/
theorem c1_counterexample :
    (resolveOptions c1opts).includeSymbols = true ∧
    (resolveOptions c1opts).excludeAmbiguous = true ∧
    generatePassword c1opts (fun _ => 14) = Except.ok ['['] ∧
    '[' ∈ claimedAmbiguousChars :=
  ⟨rfl, rfl, rfl, by decide⟩

/-- C1 (amended): with `excludeAmbiguous = true` no character of the
generated password is in the set actually removed by the code, namely
`/`, `~` and the backquote, independent of `excludeSimilar`. -/
theorem c1_amended (opts : Options) (randoms : Nat → Nat) (pw : List Char)
    (ha : (resolveOptions opts).excludeAmbiguous = true)
    (hok : generatePassword opts randoms = Except.ok pw) :
    ∀ ch ∈ pw, ch ∉ removedAmbiguousChars :=
  fun ch hch =>
    mem_buildCharSet_excludeAmbiguous _ ha ch (mem_charSet_of_ok opts randoms pw hok ch hch)

/-- Options of the C1 amended witness. -/
def c1wopts : Options := ⟨some 2, some false, some false, some false, some true, some false, some true⟩

theorem c1_amended_witness :
    (resolveOptions c1wopts).excludeAmbiguous = true ∧
    generatePassword c1wopts (fun _ => 0) = Except.ok ['!', '!'] ∧
    ∀ ch ∈ ['!', '!'], ch ∉ removedAmbiguousChars :=
  ⟨rfl, rfl, c1_amended c1wopts (fun _ => 0) ['!', '!'] rfl rfl⟩

/-- C2: with at least one include-flag true and length at least one, the
generator succeeds, the password has exactly the configured length, and
every character belongs to the character set built by `buildCharSet`
(concatenation in the fixed order uppercase, lowercase, numbers,
symbols), for every random stream. -/
theorem c2_length_and_membership (opts : Options) (randoms : Nat → Nat)
    (h1 : 1 ≤ (resolveOptions opts).length)
    (h2 : (resolveOptions opts).includeUppercase = true ∨
          (resolveOptions opts).includeLowercase = true ∨
          (resolveOptions opts).includeNumbers = true ∨
          (resolveOptions opts).includeSymbols = true) :
    ∃ pw, generatePassword opts randoms = Except.ok pw ∧
      pw.length = (resolveOptions opts).length ∧
      ∀ ch ∈ pw, ch ∈ buildCharSet (resolveOptions opts) := by
  have hcs : buildCharSet (resolveOptions opts) ≠ [] := by
    rw [Ne, buildCharSet_eq_nil_iff]
    rintro ⟨hu, hl, hn, hs⟩
    rcases h2 with h | h | h | h <;> simp_all
  refine ⟨_, generatePassword_ok_of_ne_nil opts randoms hcs, ?_, ?_⟩
  · simp
  · intro ch hch
    rcases List.mem_map.mp hch with ⟨i, _, rfl⟩
    exact List.get_mem _ _ _

/-- Options of the C2 witness: uppercase only, length 5. -/
def c2wopts : Options := ⟨some 5, some true, some false, some false, some false, some false, some false⟩

theorem c2_witness :
    (1 ≤ (resolveOptions c2wopts).length ∧
     (resolveOptions c2wopts).includeUppercase = true) ∧
    ∃ pw, generatePassword c2wopts (fun _ => 3) = Except.ok pw ∧
      pw.length = (resolveOptions c2wopts).length ∧
      ∀ ch ∈ pw, ch ∈ buildCharSet (resolveOptions c2wopts) :=
  ⟨⟨by decide, rfl⟩, c2_length_and_membership c2wopts (fun _ => 3) (by decide) (Or.inl rfl)⟩

/-- C3: the generator fails exactly when the built character set is
empty; the set is empty exactly when all four include-flags resolve to
false; and the scorer is a total function on strings. -/
theorem c3_error_iff_empty (opts : Options) (randoms : Nat → Nat) :
    ((∃ e, generatePassword opts randoms = Except.error e) ↔
       buildCharSet (resolveOptions opts) = []) ∧
    (buildCharSet (resolveOptions opts) = [] ↔
       ((resolveOptions opts).includeUppercase = false ∧
        (resolveOptions opts).includeLowercase = false ∧
        (resolveOptions opts).includeNumbers = false ∧
        (resolveOptions opts).includeSymbols = false)) ∧
    (∀ p : List Char, ∃ r : StrengthReport, calculatePasswordStrength p = r) := by
  refine ⟨⟨?_, ?_⟩, buildCharSet_eq_nil_iff _, fun p => ⟨_, rfl⟩⟩
  · rintro ⟨e, he⟩
    by_contra hcs
    rw [generatePassword_ok_of_ne_nil opts randoms hcs] at he
    cases he
  · intro hcs
    refine ⟨"至少需要选择一种字符类型", ?_⟩
    simp only [generatePassword]
    rw [dif_pos hcs]

/-- Options of the C3 witness: every class switched off. -/
def c3wopts : Options := ⟨some 8, some false, some false, some false, some false, none, none⟩

theorem c3_witness :
    ((∃ e, generatePassword c3wopts (fun _ => 0) = Except.error e) ↔
       buildCharSet (resolveOptions c3wopts) = []) ∧
    (buildCharSet (resolveOptions c3wopts) = [] ↔
       ((resolveOptions c3wopts).includeUppercase = false ∧
        (resolveOptions c3wopts).includeLowercase = false ∧
        (resolveOptions c3wopts).includeNumbers = false ∧
        (resolveOptions c3wopts).includeSymbols = false)) ∧
    (∀ p : List Char, ∃ r : StrengthReport, calculatePasswordStrength p = r) :=
  c3_error_iff_empty c3wopts (fun _ => 0)

/-- C4: with `excludeSimilar = true` no character of the generated
password is one of 0, O, 1, l, I — in particular none contributed by the
uppercase, lowercase or numbers class is. -/
theorem c4_exclude_similar (opts : Options) (randoms : Nat → Nat) (pw : List Char)
    (hs : (resolveOptions opts).excludeSimilar = true)
    (hok : generatePassword opts randoms = Except.ok pw) :
    ∀ ch ∈ pw, ch ∉ similarChars :=
  fun ch hch =>
    mem_buildCharSet_excludeSimilar _ hs ch (mem_charSet_of_ok opts randoms pw hok ch hch)

/-- Options of the C4 witness. -/
def c4wopts : Options := ⟨some 3, some true, some true, some true, some true, some true, some false⟩

theorem c4_witness :
    (resolveOptions c4wopts).excludeSimilar = true ∧
    generatePassword c4wopts (fun _ => 0) = Except.ok ['A', 'A', 'A'] ∧
    ∀ ch ∈ ['A', 'A', 'A'], ch ∉ similarChars :=
  ⟨rfl, rfl, c4_exclude_similar c4wopts (fun _ => 0) ['A', 'A', 'A'] rfl rfl⟩

/-- C9: absent option fields default to length 16, all four classes
included, no exclusions; the derived character set is the full
four-class alphabet; and generation always succeeds with a 16-character
password drawn from it. -/
theorem c9_defaults (randoms : Nat → Nat) :
    resolveOptions emptyOptions = ⟨16, true, true, true, true, false, false⟩ ∧
    buildCharSet (resolveOptions emptyOptions) =
      upperFull ++ lowerFull ++ numbersFull ++ symbolsFull ∧
    ∃ pw, generatePassword emptyOptions randoms = Except.ok pw ∧ pw.length = 16 ∧
      ∀ ch ∈ pw, ch ∈ buildCharSet (resolveOptions emptyOptions) := by
  have hcs : buildCharSet (resolveOptions emptyOptions) ≠ [] := by decide
  refine ⟨rfl, rfl, _, generatePassword_ok_of_ne_nil emptyOptions randoms hcs, ?_, ?_⟩
  · simp [resolveOptions, emptyOptions]
  · intro ch hch
    rcases List.mem_map.mp hch with ⟨i, _, rfl⟩
    exact List.get_mem _ _ _

theorem c9_witness :
    resolveOptions emptyOptions = ⟨16, true, true, true, true, false, false⟩ ∧
    buildCharSet (resolveOptions emptyOptions) =
      upperFull ++ lowerFull ++ numbersFull ++ symbolsFull ∧
    ∃ pw, generatePassword emptyOptions (fun _ => 7) = Except.ok pw ∧ pw.length = 16 ∧
      ∀ ch ∈ pw, ch ∈ buildCharSet (resolveOptions emptyOptions) :=
  c9_defaults (fun _ => 7)

/-! ## Helper lemmas about the scorer -/

theorem ite_ten_nonneg {P : Prop} [Decidable P] : (0:ℚ) ≤ if P then 10 else 0 := by
  split <;> norm_num

theorem lengthScore_nonneg (n : Nat) : 0 ≤ lengthScore n :=
  add_nonneg (add_nonneg (add_nonneg ite_ten_nonneg ite_ten_nonneg) ite_ten_nonneg) ite_ten_nonneg

theorem ite_le_ite_q {P Q : Prop} [Decidable P] [Decidable Q] (a : ℚ) (ha : 0 ≤ a)
    (h : P → Q) : (if P then a else 0) ≤ (if Q then a else 0) := by
  by_cases hq : Q
  · rw [if_pos hq]
    split
    · exact le_rfl
    · exact ha
  · rw [if_neg hq, if_neg fun hp => hq (h hp)]

theorem ite_le_ite_n {P Q : Prop} [Decidable P] [Decidable Q] (a : Nat)
    (h : P → Q) : (if P then a else 0) ≤ (if Q then a else 0) := by
  by_cases hq : Q
  · rw [if_pos hq]
    split
    · exact le_rfl
    · exact Nat.zero_le a
  · rw [if_neg hq, if_neg fun hp => hq (h hp)]

theorem lengthScore_mono {n m : Nat} (h : n ≤ m) : lengthScore n ≤ lengthScore m := by
  unfold lengthScore
  have t : ∀ k : Nat, (if k ≤ n then (10:ℚ) else 0) ≤ (if k ≤ m then 10 else 0) :=
    fun k => ite_le_ite_q 10 (by norm_num) (fun hk => hk.trans h)
  exact add_le_add (add_le_add (add_le_add (t 8) (t 12)) (t 16)) (t 20)

theorem any_append_left {p q : List Char} {f : Char → Bool} (h : p.any f = true) :
    (p ++ q).any f = true := by
  simp [List.any_append, h]

theorem hasLower_append {p q : List Char} (h : hasLower p = true) :
    hasLower (p ++ q) = true := any_append_left h

theorem hasUpper_append {p q : List Char} (h : hasUpper p = true) :
    hasUpper (p ++ q) = true := any_append_left h

theorem hasDigit_append {p q : List Char} (h : hasDigit p = true) :
    hasDigit (p ++ q) = true := any_append_left h

theorem hasSymbol_append {p q : List Char} (h : hasSymbol p = true) :
    hasSymbol (p ++ q) = true := any_append_left h

theorem classScore_le_append (p q : List Char) : classScore p ≤ classScore (p ++ q) := by
  unfold classScore
  exact add_le_add (add_le_add (add_le_add
    (ite_le_ite_q 10 (by norm_num) hasLower_append)
    (ite_le_ite_q 10 (by norm_num) hasUpper_append))
    (ite_le_ite_q 10 (by norm_num) hasDigit_append))
    (ite_le_ite_q 10 (by norm_num) hasSymbol_append)

theorem getCharSetSize_le_append (p q : List Char) :
    getCharSetSize p ≤ getCharSetSize (p ++ q) := by
  unfold getCharSetSize
  exact add_le_add (add_le_add (add_le_add
    (ite_le_ite_n 26 hasLower_append)
    (ite_le_ite_n 26 hasUpper_append))
    (ite_le_ite_n 10 hasDigit_append))
    (ite_le_ite_n 32 hasSymbol_append)

theorem exists_class (p : List Char) (hp : p ≠ []) :
    hasLower p = true ∨ hasUpper p = true ∨ hasDigit p = true ∨ hasSymbol p = true := by
  obtain ⟨c, t, rfl⟩ := List.exists_cons_of_ne_nil hp
  by_cases hl : isLower c = true
  · left
    simp [hasLower, hl]
  by_cases hu : isUpper c = true
  · right; left
    simp [hasUpper, hu]
  by_cases hd : isDigit c = true
  · right; right; left
    simp [hasDigit, hd]
  · right; right; right
    simp only [Bool.not_eq_true] at hl hu hd
    simp [hasSymbol, isSymbol, hl, hu, hd]

theorem ten_le_getCharSetSize {p : List Char} (hp : p ≠ []) : 10 ≤ getCharSetSize p := by
  have h := exists_class p hp
  unfold getCharSetSize
  split_ifs <;> first | (rcases h with h | h | h | h <;> contradiction) | omega

theorem ten_le_classScore {p : List Char} (hp : p ≠ []) : 10 ≤ classScore p := by
  have h := exists_class p hp
  unfold classScore
  split_ifs <;> first | (rcases h with h | h | h | h <;> contradiction) | norm_num

theorem uniquenessBonus_nonneg (p : List Char) : 0 ≤ uniquenessBonus p := by
  unfold uniquenessBonus
  exact le_min (by positivity) (by norm_num)

theorem entropyBonus_nonneg {p : List Char} (hp : p ≠ []) : 0 ≤ entropyBonus p := by
  unfold entropyBonus
  have h1 : (1:ℝ) ≤ (getCharSetSize p : ℝ) := by
    have := ten_le_getCharSetSize hp
    exact_mod_cast le_trans (by norm_num) this
  have hl : 0 ≤ Real.logb 2 (getCharSetSize p) := Real.logb_nonneg (by norm_num) h1
  exact le_min (div_nonneg (mul_nonneg (by positivity) hl) (by norm_num)) (by norm_num)

theorem strength_score_eq {p : List Char} (hp : p ≠ []) :
    (calculatePasswordStrength p).score = min (max (rawScore p) 0) 100 := by
  unfold calculatePasswordStrength
  rw [if_neg hp]

theorem strength_level_eq {p : List Char} (hp : p ≠ []) :
    (calculatePasswordStrength p).level = strengthLevel (min (max (rawScore p) 0) 100) := by
  unfold calculatePasswordStrength
  rw [if_neg hp]

theorem strength_feedback_eq {p : List Char} (hp : p ≠ []) :
    (calculatePasswordStrength p).feedback = feedbackFor p := by
  unfold calculatePasswordStrength
  rw [if_neg hp]

theorem strengthLevel_of_lt_forty {s : ℝ} (h : s < 40) : strengthLevel s = "weak" := by
  unfold strengthLevel
  rw [if_neg (by linarith), if_neg (by linarith), if_neg (by linarith)]

/-! ## Scorer claims -/

/-- C6: the empty password yields exactly score 0, level weak and empty
feedback, before any classification or division. -/
theorem c6_empty_report : calculatePasswordStrength [] = ⟨0, "weak", []⟩ := rfl

/-- C5 (amended): for every input the score is a real number in the
closed interval from 0 to 100 (the clamp on source line 115); it is not
always an integer. -/
theorem c5_amended_score_range (p : List Char) :
    0 ≤ (calculatePasswordStrength p).score ∧ (calculatePasswordStrength p).score ≤ 100 := by
  by_cases hp : p = []
  · subst hp
    have h0 : (calculatePasswordStrength ([] : List Char)).score = 0 := rfl
    rw [h0]
    norm_num
  · rw [strength_score_eq hp]
    exact ⟨le_min (le_max_right _ _) (by norm_num), min_le_right _ _⟩

theorem c5_amended_witness :
    0 ≤ (calculatePasswordStrength ['x']).score ∧
    (calculatePasswordStrength ['x']).score ≤ 100 :=
  c5_amended_score_range ['x']

/-- A 24-character lowercase password with two distinct characters. -/
def pw24 : List Char :=
  ['a', 'b', 'a', 'b', 'a', 'b', 'a', 'b', 'a', 'b', 'a', 'b',
   'a', 'b', 'a', 'b', 'a', 'b', 'a', 'b', 'a', 'b', 'a', 'b']

/-- C5 is false as stated: the score of `pw24` is 185/3 (length bonus 40,
class bonus 10, uniqueness bonus 5/3, entropy bonus capped at 10), which
is not an integer. -/
theorem c5_counterexample :
    ¬ ∃ n : ℤ, (calculatePasswordStrength pw24).score = (n : ℝ) := by
  have hp : pw24 ≠ [] := by decide
  have hlen : pw24.length = 24 := by decide
  have hlb : hasLower pw24 = true := by decide
  have hub : hasUpper pw24 = false := by decide
  have hdb : hasDigit pw24 = false := by decide
  have hsb : hasSymbol pw24 = false := by decide
  have hun : uniqueChars pw24 = 2 := by decide
  have h1 : lengthScore pw24.length = 40 := by rw [hlen]; norm_num [lengthScore]
  have h2 : classScore pw24 = 10 := by
    unfold classScore
    rw [hlb, hub, hdb, hsb]
    norm_num
  have h3 : uniquenessBonus pw24 = 5/3 := by
    unfold uniquenessBonus
    rw [hun, hlen]
    rw [show ((2:ℕ):ℚ) / ((24:ℕ):ℚ) * 20 = 5/3 by push_cast; norm_num]
    exact min_eq_left (by norm_num)
  have hsize : getCharSetSize pw24 = 26 := by decide
  have hlog : (25/6 : ℝ) ≤ Real.logb 2 26 := by
    rw [Real.le_logb_iff_rpow_le (by norm_num) (by norm_num)]
    have h6 : ((2:ℝ) ^ ((25:ℝ)/6)) ^ (6:ℕ) ≤ (26:ℝ) ^ (6:ℕ) := by
      have e1 : ((2:ℝ) ^ ((25:ℝ)/6)) ^ (6:ℕ) = (2:ℝ) ^ (25:ℕ) := by
        rw [← Real.rpow_natCast ((2:ℝ) ^ ((25:ℝ)/6)) 6, ← Real.rpow_mul (by norm_num)]
        rw [show (25:ℝ)/6 * ((6:ℕ):ℝ) = ((25:ℕ):ℝ) by push_cast; ring]
        exact Real.rpow_natCast 2 25
      rw [e1]
      norm_num
    exact le_of_pow_le_pow_left₀ (by norm_num) (by norm_num) h6
  have h4 : entropyBonus pw24 = 10 := by
    unfold entropyBonus
    rw [hsize, hlen]
    have hc : ((26:ℕ):ℝ) = 26 := by norm_num
    rw [hc]
    refine min_eq_right ?_
    have : (25/6 : ℝ) * 24 ≤ Real.logb 2 26 * 24 := by linarith
    have h24 : ((24:ℕ):ℝ) = 24 := by norm_num
    rw [h24]
    linarith
  have hraw : rawScore pw24 = 185/3 := by
    unfold rawScore
    rw [h1, h2, h3, h4]
    push_cast
    norm_num
  have hscore : (calculatePasswordStrength pw24).score = 185/3 := by
    rw [strength_score_eq hp, hraw]
    rw [max_eq_left (by norm_num), min_eq_left (by norm_num)]
  rintro ⟨n, hn⟩
  rw [hscore] at hn
  have h3n : ((3 * n : ℤ) : ℝ) = 185 := by push_cast; linarith
  have h3z : (3 * n : ℤ) = 185 := by exact_mod_cast h3n
  omega

/-- C10: every nonempty password scores at least 10, because every
character falls in one of the four classes (the symbol class is the
complement of the other three), so one class bonus always fires; hence
score 0 only occurs for the empty string. -/
theorem c10_nonempty_score (p : List Char) (hp : p ≠ []) :
    10 ≤ (calculatePasswordStrength p).score ∧ (calculatePasswordStrength p).score ≠ 0 := by
  have h1 : (0:ℚ) ≤ lengthScore p.length := lengthScore_nonneg _
  have h2 : (10:ℚ) ≤ classScore p := ten_le_classScore hp
  have h3 : (0:ℚ) ≤ uniquenessBonus p := uniquenessBonus_nonneg p
  have h4 : (0:ℝ) ≤ entropyBonus p := entropyBonus_nonneg hp
  have hraw : (10:ℝ) ≤ rawScore p := by
    unfold rawScore
    have c1 : (0:ℝ) ≤ ((lengthScore p.length : ℚ) : ℝ) := by exact_mod_cast h1
    have c2 : (10:ℝ) ≤ ((classScore p : ℚ) : ℝ) := by exact_mod_cast h2
    have c3 : (0:ℝ) ≤ ((uniquenessBonus p : ℚ) : ℝ) := by exact_mod_cast h3
    linarith
  rw [strength_score_eq hp]
  have hs : (10:ℝ) ≤ min (max (rawScore p) 0) 100 :=
    le_min (hraw.trans (le_max_left _ _)) (by norm_num)
  exact ⟨hs, by intro h0; rw [h0] at hs; norm_num at hs⟩

theorem c10_witness :
    (['a'] : List Char) ≠ [] ∧
    10 ≤ (calculatePasswordStrength ['a']).score ∧
    (calculatePasswordStrength ['a']).score ≠ 0 :=
  ⟨by decide, (c10_nonempty_score ['a'] (by decide)).1, (c10_nonempty_score ['a'] (by decide)).2⟩

/-- The password "aaaaaaaa" as a character list. -/
def aaaa8 : List Char := ['a', 'a', 'a', 'a', 'a', 'a', 'a', 'a']

/-- C7: "aaaaaaaa" gets length bonus 10, class bonus 10, uniqueness
bonus 5/2, an entropy bonus of at most 10, level weak, and its feedback
contains the messages for length below 12, missing uppercase, missing
digit, missing symbol and low uniqueness ratio. -/
theorem c7_aaaaaaaa :
    lengthScore aaaa8.length = 10 ∧
    classScore aaaa8 = 10 ∧
    uniquenessBonus aaaa8 = 5/2 ∧
    entropyBonus aaaa8 ≤ 10 ∧
    (calculatePasswordStrength aaaa8).level = "weak" ∧
    "建议使用 12 个字符以上的密码" ∈ (calculatePasswordStrength aaaa8).feedback ∧
    "建议包含大写字母" ∈ (calculatePasswordStrength aaaa8).feedback ∧
    "建议包含数字" ∈ (calculatePasswordStrength aaaa8).feedback ∧
    "建议包含特殊字符" ∈ (calculatePasswordStrength aaaa8).feedback ∧
    "建议使用更多不同的字符" ∈ (calculatePasswordStrength aaaa8).feedback := by
  have hp : aaaa8 ≠ [] := by decide
  have hlen8 : aaaa8.length = 8 := by decide
  have hl : hasLower aaaa8 = true := by decide
  have hu : hasUpper aaaa8 = false := by decide
  have hd : hasDigit aaaa8 = false := by decide
  have hs : hasSymbol aaaa8 = false := by decide
  have hun : uniqueChars aaaa8 = 1 := by decide
  have h1 : lengthScore aaaa8.length = 10 := by rw [hlen8]; norm_num [lengthScore]
  have h2 : classScore aaaa8 = 10 := by
    unfold classScore
    rw [hl, hu, hd, hs]
    norm_num
  have h3 : uniquenessBonus aaaa8 = 5/2 := by
    unfold uniquenessBonus
    rw [hun, hlen8]
    rw [show ((1:ℕ):ℚ) / ((8:ℕ):ℚ) * 20 = 5/2 by push_cast; norm_num]
    exact min_eq_left (by norm_num)
  have h4 : entropyBonus aaaa8 ≤ 10 := min_le_right _ _
  have hfb : feedbackFor aaaa8 =
      ["建议使用 12 个字符以上的密码", "建议包含大写字母", "建议包含数字",
       "建议包含特殊字符", "建议使用更多不同的字符"] := by
    unfold feedbackFor
    rw [hl, hu, hd, hs, hun, hlen8]
    norm_num
  have hlevel : (calculatePasswordStrength aaaa8).level = "weak" := by
    rw [strength_level_eq hp]
    apply strengthLevel_of_lt_forty
    have hraw : rawScore aaaa8 ≤ 65/2 := by
      unfold rawScore
      rw [h1, h2, h3]
      push_cast
      linarith
    calc min (max (rawScore aaaa8) 0) 100 ≤ max (rawScore aaaa8) 0 := min_le_left _ _
      _ < 40 := max_lt (lt_of_le_of_lt hraw (by norm_num)) (by norm_num)
  refine ⟨h1, h2, h3, h4, hlevel, ?_, ?_, ?_, ?_, ?_⟩ <;>
    rw [strength_feedback_eq hp, hfb] <;> simp

/-! ## Monotonicity of the score under appending fresh characters -/

theorem uniqueChars_append {p q : List Char} (hnd : q.Nodup) (hnew : ∀ ch ∈ q, ch ∉ p) :
    uniqueChars (p ++ q) = uniqueChars p + q.length := by
  unfold uniqueChars
  rw [List.toFinset_append,
    Finset.card_union_of_disjoint
      (Finset.disjoint_left.mpr fun a hap haq =>
        hnew a (List.mem_toFinset.mp haq) (List.mem_toFinset.mp hap)),
    List.toFinset_card_of_nodup hnd]

theorem uniquenessBonus_le_append {p q : List Char} (hp : p ≠ []) (hnd : q.Nodup)
    (hnew : ∀ ch ∈ q, ch ∉ p) : uniquenessBonus p ≤ uniquenessBonus (p ++ q) := by
  unfold uniquenessBonus
  refine min_le_min ?_ le_rfl
  rw [uniqueChars_append hnd hnew, List.length_append]
  have hd : uniqueChars p ≤ p.length := List.toFinset_card_le p
  have hn : 0 < p.length := List.length_pos.mpr hp
  have hqn : (0:ℚ) < (p.length : ℚ) := by exact_mod_cast hn
  have hqm : (0:ℚ) < ((p.length + q.length : ℕ) : ℚ) := by
    have : 0 < p.length + q.length := Nat.lt_of_lt_of_le hn (Nat.le_add_right _ _)
    exact_mod_cast this
  have key : (uniqueChars p : ℚ) / (p.length : ℚ) ≤
      ((uniqueChars p + q.length : ℕ) : ℚ) / ((p.length + q.length : ℕ) : ℚ) := by
    rw [div_le_div_iff₀ hqn hqm]
    push_cast
    have hdq : (uniqueChars p : ℚ) ≤ (p.length : ℚ) := by exact_mod_cast hd
    have hq0 : (0:ℚ) ≤ (q.length : ℚ) := by positivity
    nlinarith
  exact mul_le_mul_of_nonneg_right key (by norm_num)

theorem entropyBonus_le_append {p q : List Char} (hp : p ≠ []) :
    entropyBonus p ≤ entropyBonus (p ++ q) := by
  unfold entropyBonus
  refine min_le_min ?_ le_rfl
  have h1 : (1:ℝ) ≤ (getCharSetSize p : ℝ) := by
    have := ten_le_getCharSetSize hp
    exact_mod_cast le_trans (by norm_num) this
  have hsz : getCharSetSize p ≤ getCharSetSize (p ++ q) := getCharSetSize_le_append p q
  have hlog : Real.logb 2 (getCharSetSize p) ≤ Real.logb 2 (getCharSetSize (p ++ q)) :=
    Real.logb_le_logb_of_le (by norm_num) (by linarith) (by exact_mod_cast hsz)
  have hlog0 : 0 ≤ Real.logb 2 (getCharSetSize p) := Real.logb_nonneg (by norm_num) h1
  have hlen : (p.length : ℝ) ≤ ((p ++ q).length : ℝ) := by
    have : p.length ≤ (p ++ q).length := by simp
    exact_mod_cast this
  have hmul : (p.length : ℝ) * Real.logb 2 (getCharSetSize p) ≤
      ((p ++ q).length : ℝ) * Real.logb 2 (getCharSetSize (p ++ q)) :=
    mul_le_mul hlen hlog hlog0 (by positivity)
  linarith

theorem rawScore_le_append {p q : List Char} (hp : p ≠ []) (hnd : q.Nodup)
    (hnew : ∀ ch ∈ q, ch ∉ p) : rawScore p ≤ rawScore (p ++ q) := by
  unfold rawScore
  have hL : lengthScore p.length ≤ lengthScore (p ++ q).length :=
    lengthScore_mono (by simp)
  have hC : classScore p ≤ classScore (p ++ q) := classScore_le_append p q
  have hU : uniquenessBonus p ≤ uniquenessBonus (p ++ q) :=
    uniquenessBonus_le_append hp hnd hnew
  have hE : entropyBonus p ≤ entropyBonus (p ++ q) := entropyBonus_le_append hp
  have cL : ((lengthScore p.length : ℚ) : ℝ) ≤ ((lengthScore (p ++ q).length : ℚ) : ℝ) := by
    exact_mod_cast hL
  have cC : ((classScore p : ℚ) : ℝ) ≤ ((classScore (p ++ q) : ℚ) : ℝ) := by
    exact_mod_cast hC
  have cU : ((uniquenessBonus p : ℚ) : ℝ) ≤ ((uniquenessBonus (p ++ q) : ℚ) : ℝ) := by
    exact_mod_cast hU
  linarith

/-- C8: appending characters that are pairwise distinct and new to a
nonempty mixed-class password never decreases the score, for any
crossing of length thresholds. -/
theorem c8_append_monotone (p q : List Char) (hp : p ≠ [])
    (hmixed : 2 ≤ numClasses p) (hnd : q.Nodup) (hnew : ∀ ch ∈ q, ch ∉ p) :
    (calculatePasswordStrength p).score ≤ (calculatePasswordStrength (p ++ q)).score := by
  have hpq : p ++ q ≠ [] := fun h => hp (List.append_eq_nil.mp h).1
  rw [strength_score_eq hp, strength_score_eq hpq]
  exact min_le_min (max_le_max (rawScore_le_append hp hnd hnew) le_rfl) le_rfl

theorem c8_witness :
    ((['A', 'b'] : List Char) ≠ [] ∧ 2 ≤ numClasses ['A', 'b'] ∧
     (['c', '7'] : List Char).Nodup ∧ ∀ ch ∈ (['c', '7'] : List Char), ch ∉ (['A', 'b'] : List Char)) ∧
    (calculatePasswordStrength ['A', 'b']).score ≤
      (calculatePasswordStrength (['A', 'b'] ++ ['c', '7'])).score :=
  ⟨⟨by decide, by decide, by decide, by decide⟩,
    c8_append_monotone ['A', 'b'] ['c', '7'] (by decide) (by decide) (by decide) (by decide)⟩

end PassGen
